import Mathlib

/-!
Verification development for the `ppc-upload` PPC optimizer
(`amazon_ppc_optimizer_advanced.py`).  The decision engine is embedded
shallowly: Python floats become rationals (`ℚ`), the `float("inf")` ACOS
sentinel becomes an explicit constructor, network collaborators become
injected data plus an explicit log of API calls, and the wall clock of the
dayparting selector becomes an explicit hour / multiplier argument.
-/

namespace PPC

/-- ACOS value as computed by `compute_kpis`: either a finite rational or the
`float("inf")` sentinel produced when `sales == 0` and `cost > 0`. -/
inductive AcosVal where
  | val (q : ℚ)
  | inf
deriving DecidableEq, Repr

/-- Python comparison `acos > x` where `acos` may be `inf` (`inf > x` is true). -/
def AcosVal.gtQ : AcosVal → ℚ → Bool
  | .inf, _ => true
  | .val q, x => decide (x < q)

/-- Python comparison `acos < x` where `acos` may be `inf` (`inf < x` is false). -/
def AcosVal.ltQ : AcosVal → ℚ → Bool
  | .inf, _ => false
  | .val q, x => decide (q < x)

/-- Python comparison `acos <= x` where `acos` may be `inf` (`inf <= x` is false). -/
def AcosVal.leQ : AcosVal → ℚ → Bool
  | .inf, _ => false
  | .val q, x => decide (q ≤ x)

/-- The rules dictionary (`DEFAULT_RULES` keys) as an immutable record.
Numeric values are rationals; `min_clicks` is an integer as in the source. -/
structure Rules where
  lookback_days : ℕ
  min_clicks : ℤ
  min_spend : ℚ
  target_acos : ℚ
  high_acos : ℚ
  low_acos : ℚ
  min_ctr : ℚ
  up_pct : ℚ
  down_pct : ℚ
  min_bid : ℚ
  max_bid : ℚ
  dayparting_enabled : Bool
  peak_hours : List ℕ
  peak_multiplier : ℚ
  off_peak_multiplier : ℚ
  auto_activate_campaigns : Bool
  auto_deactivate_campaigns : Bool
  deactivate_acos_threshold : ℚ
  activate_acos_threshold : ℚ
  auto_add_keywords : Bool
  keyword_research_enabled : Bool
  max_keywords_per_campaign : ℕ
  new_keyword_bid : ℚ
  auto_create_campaigns : Bool
  new_campaign_daily_budget : ℚ
deriving Repr

/-- `DEFAULT_RULES` from the source, lines 52-82. -/
def DEFAULT_RULES : Rules where
  lookback_days := 14
  min_clicks := 10
  min_spend := 5
  target_acos := 0.45
  high_acos := 0.45
  low_acos := 0.30
  min_ctr := 0.003
  up_pct := 0.15
  down_pct := 0.15
  min_bid := 0.25
  max_bid := 5
  dayparting_enabled := true
  peak_hours := [9, 10, 11, 12, 13, 14, 15, 16, 17, 18, 19, 20]
  peak_multiplier := 1.20
  off_peak_multiplier := 0.85
  auto_activate_campaigns := true
  auto_deactivate_campaigns := true
  deactivate_acos_threshold := 0.45
  activate_acos_threshold := 0.45
  auto_add_keywords := true
  keyword_research_enabled := true
  max_keywords_per_campaign := 50
  new_keyword_bid := 0.50
  auto_create_campaigns := true
  new_campaign_daily_budget := 10

/-- Python `int(float(x))`: truncation toward zero on a rational. -/
def pyInt (q : ℚ) : ℤ :=
  if q < 0 then -Rat.floor (-q) else Rat.floor q

/-- One report row as consumed by `compute_kpis`.  A field is `none` when the
column is absent or its value is falsy (empty string), in which case the
source's `row.get(k, 0) or 0` yields `0`; otherwise it is the parsed number. -/
structure Row where
  clicks : Option ℚ
  impressions : Option ℚ
  cost : Option ℚ
  attributedSales14d : Option ℚ
deriving Repr

/-- The KPI snapshot returned by `compute_kpis`. -/
structure Kpis where
  ctr : ℚ
  acos : AcosVal
  cost : ℚ
  sales : ℚ
  clicks : ℤ
deriving Repr

/-- `compute_kpis` (source lines 409-419).  `if impressions` is Python
truthiness on a float, i.e. `impressions ≠ 0`. -/
def compute_kpis (row : Row) : Kpis :=
  let clicks : ℤ := pyInt (row.clicks.getD 0)
  let impressions : ℚ := row.impressions.getD 0
  let cost : ℚ := row.cost.getD 0
  let sales : ℚ := row.attributedSales14d.getD 0
  let ctr : ℚ := if impressions ≠ 0 then (clicks : ℚ) / impressions else 0
  let acos : AcosVal :=
    if sales > 0 then .val (cost / sales) else if cost > 0 then .inf else .val 0
  ⟨ctr, acos, cost, sales, clicks⟩

/-- `get_dayparting_multiplier` (source lines 424-435), with the wall-clock
hour passed explicitly instead of read from `datetime.now()`. -/
def get_dayparting_multiplier (rules : Rules) (current_hour : ℕ) : ℚ :=
  if !rules.dayparting_enabled then 1
  else if current_hour ∈ rules.peak_hours then rules.peak_multiplier
  else rules.off_peak_multiplier

/-- `clamp` (source lines 440-442): `max(lo, min(hi, v))`. -/
def clamp (v lo hi : ℚ) : ℚ :=
  max lo (min hi v)

/-- `decide_bid_change` (source lines 445-480).  In the source the dayparting
multiplier is computed inside the function from the wall clock via
`get_dayparting_multiplier(rules)`; here that multiplier is the explicit
argument `daypart_mult`, the only use the function makes of the clock. -/
def decide_bid_change (rules : Rules) (ctr : ℚ) (acos : AcosVal) (clicks : ℤ)
    (cost sales current_bid : ℚ) (daypart_mult : ℚ) : Option ℚ :=
  if clicks < rules.min_clicks ∧ cost < rules.min_spend then
    none
  else if ctr < rules.min_ctr ∧ clicks ≥ rules.min_clicks then
    some (clamp (current_bid * (1 - rules.down_pct) * daypart_mult) rules.min_bid rules.max_bid)
  else if sales ≤ 0 ∧ clicks ≥ rules.min_clicks then
    some (clamp (current_bid * (1 - rules.down_pct) * daypart_mult) rules.min_bid rules.max_bid)
  else if acos.gtQ rules.high_acos then
    some (clamp (current_bid * (1 - rules.down_pct) * daypart_mult) rules.min_bid rules.max_bid)
  else if acos.ltQ rules.low_acos ∧ sales > 0 then
    some (clamp (current_bid * (1 + rules.up_pct) * daypart_mult) rules.min_bid rules.max_bid)
  else if daypart_mult ≠ 1 then
    some (clamp (current_bid * daypart_mult) rules.min_bid rules.max_bid)
  else
    none

/-! ## API call log

The Amazon Ads client functions are network collaborators.  The engine's
observable interactions with them are modelled as an explicit trace of
`ApiCall` values emitted alongside each stage's result. -/

/-- A keyword-creation payload entry built by `research_and_add_keywords`
(source lines 581-588).  Entity ids stay as the strings the source converts
with `int(...)` when serialising. -/
structure NewKeyword where
  campaignId : String
  adGroupId : String
  keywordText : String
  matchType : String
  state : String
  bid : ℚ
deriving DecidableEq, Repr

/-- A bid-update payload entry (`{"keywordId": ..., "bid": ...}`). -/
structure BidUpdate where
  keywordId : String
  bid : ℚ
deriving DecidableEq, Repr

/-- One call to the ad-platform client, read or write. -/
inductive ApiCall where
  | updateCampaignState (campaign_id : String) (state : String)
  | getKeywords (ad_group_id : String)
  | getKeywordSuggestions (ad_group_id : String) (max_suggestions : ℕ)
  | createKeywords (keywords : List NewKeyword)
  | updateKeywordBids (updates : List BidUpdate)
deriving DecidableEq, Repr

/-- Whether a call mutates platform state (reads are `get_keywords` and
`get_keyword_suggestions`; everything else is a write). -/
def ApiCall.isMutating : ApiCall → Bool
  | .getKeywords _ => false
  | .getKeywordSuggestions _ _ => false
  | _ => true

/-! ## Campaign Lifecycle Manager -/

/-- One entry of the `campaign_performance` map built in `main`
(source lines 758-769). -/
structure CampPerf where
  acos : AcosVal
  ctr : ℚ
  cost : ℚ
  sales : ℚ
  clicks : ℤ
  state : String
deriving Repr

/-- One element of the `actions` list of `manage_campaigns_by_acos`.  The
`reason` string interpolation of the source is not modelled. -/
structure CampaignAction where
  campaign_id : String
  action : String
  acos : AcosVal
deriving Repr

/-- The body of the `for campaign_id, perf in campaign_performance.items()`
loop of `manage_campaigns_by_acos` (source lines 494-545) for one campaign:
the actions appended and the mutating calls issued.  The source wraps each
`update_campaign_state` in a `try` whose failure drops the action; the
collaborator is modelled as succeeding. -/
def manageCampaignStep (rules : Rules) (dry_run : Bool) (campaign_id : String)
    (perf : CampPerf) : List CampaignAction × List ApiCall :=
  if perf.clicks < rules.min_clicks then ([], [])
  else if rules.auto_deactivate_campaigns && perf.acos.gtQ rules.deactivate_acos_threshold then
    if perf.state = "enabled" then
      if dry_run then ([⟨campaign_id, "paused (dry-run)", perf.acos⟩], [])
      else ([⟨campaign_id, "paused", perf.acos⟩], [.updateCampaignState campaign_id "paused"])
    else ([], [])
  else if rules.auto_activate_campaigns && perf.acos.leQ rules.activate_acos_threshold then
    if perf.state = "paused" then
      if dry_run then ([⟨campaign_id, "enabled (dry-run)", perf.acos⟩], [])
      else ([⟨campaign_id, "enabled", perf.acos⟩], [.updateCampaignState campaign_id "enabled"])
    else ([], [])
  else ([], [])

/-- `manage_campaigns_by_acos` (source lines 485-547) over the performance
map given as an association list. -/
def manage_campaigns_by_acos (rules : Rules)
    (campaign_performance : List (String × CampPerf)) (dry_run : Bool) :
    List CampaignAction × List ApiCall :=
  if !rules.auto_activate_campaigns && !rules.auto_deactivate_campaigns then ([], [])
  else
    campaign_performance.foldl
      (fun acc p => (acc.1 ++ (manageCampaignStep rules dry_run p.1 p.2).1,
        acc.2 ++ (manageCampaignStep rules dry_run p.1 p.2).2))
      ([], [])

/-! ## Keyword Expansion Engine -/

/-- One suggestion returned by `get_keyword_suggestions`; `none` fields model
absent dictionary keys, read with `.get("keywordText", "")` and
`.get("matchType", "broad")`. -/
structure Suggestion where
  keywordText : Option String
  matchType : Option String
deriving Repr

/-- One ad group together with the collaborator responses the source fetches
for it: `get_keywords` results (their `keywordText` fields, `""` when
missing) and `get_keyword_suggestions` results. -/
structure AdGroup where
  adGroupId : String
  campaignId : String
  existingKeywords : List String
  suggestions : List Suggestion
deriving Repr

/-- One entry of the `added_keywords` result list
(source lines 599-605 and 610-616). -/
structure AddedKeyword where
  ad_group_id : String
  keyword : String
  match_type : String
  bid : ℚ
  status : String
deriving Repr

/-- The `for suggestion in suggestions` selection loop of
`research_and_add_keywords` (source lines 578-592): `seen` is the
`existing_keyword_texts` set (initially the lower-cased existing texts,
grown with each accepted text), `acc` the `new_keywords` list; the loop
breaks as soon as the list reaches 5 entries. -/
def selectNewKeywords (rules : Rules) (campaign_id ad_group_id : String)
    (seen : List String) (acc : List NewKeyword) :
    List Suggestion → List NewKeyword
  | [] => acc
  | s :: rest =>
    let keyword_text := s.keywordText.getD ""
    if keyword_text.toLower ∈ seen then
      selectNewKeywords rules campaign_id ad_group_id seen acc rest
    else
      let acc' := acc ++ [⟨campaign_id, ad_group_id, keyword_text,
        s.matchType.getD "broad", "enabled", rules.new_keyword_bid⟩]
      let seen' := keyword_text.toLower :: seen
      if 5 ≤ acc'.length then acc'
      else selectNewKeywords rules campaign_id ad_group_id seen' acc' rest

/-- The body of the `for ad_group in ad_groups` loop of
`research_and_add_keywords` (source lines 561-616) for one ad group.  The
non-dry-run `status` comes from the collaborator's response
(`result.get("code", "unknown")`), modelled as `"unknown"`; the `try` around
`create_keywords` is modelled as succeeding. -/
def processAdGroup (rules : Rules) (dry_run : Bool) (g : AdGroup) :
    List AddedKeyword × List ApiCall :=
  let fetch : List ApiCall := [.getKeywords g.adGroupId]
  let existing_keyword_texts := g.existingKeywords.map String.toLower
  if rules.max_keywords_per_campaign ≤ g.existingKeywords.length then ([], fetch)
  else
    let fetch2 := fetch ++ [.getKeywordSuggestions g.adGroupId 20]
    let new_keywords :=
      selectNewKeywords rules g.campaignId g.adGroupId existing_keyword_texts [] g.suggestions
    if new_keywords.isEmpty then ([], fetch2)
    else if dry_run then
      (new_keywords.map fun kw => ⟨g.adGroupId, kw.keywordText, kw.matchType, kw.bid, "dry-run"⟩,
        fetch2)
    else
      (new_keywords.map fun kw => ⟨g.adGroupId, kw.keywordText, kw.matchType, kw.bid, "unknown"⟩,
        fetch2 ++ [.createKeywords new_keywords])

/-- `research_and_add_keywords` (source lines 552-618). -/
def research_and_add_keywords (rules : Rules) (ad_groups : List AdGroup)
    (dry_run : Bool) : List AddedKeyword × List ApiCall :=
  if !rules.keyword_research_enabled || !rules.auto_add_keywords then ([], [])
  else
    ad_groups.foldl
      (fun acc g => (acc.1 ++ (processAdGroup rules dry_run g).1,
        acc.2 ++ (processAdGroup rules dry_run g).2))
      ([], [])

/-! ## Bid push fragment of `main` -/

/-- The push of `bid_updates` in step 3 of `main` (source lines 844-852):
`update_keyword_bids` is called only when the list is nonempty and the run
is not a dry run. -/
def pushBidUpdates (dry_run : Bool) (bid_updates : List BidUpdate) : List ApiCall :=
  if bid_updates.isEmpty then []
  else if dry_run then []
  else [.updateKeywordBids bid_updates]

/-! ## Report Retrieval State Machine -/

/-- One response of `get_report_status` as polled by `poll_report`. -/
structure PollResp where
  status : String
  location : String
deriving Repr

/-- How `poll_report` ends without a location. -/
inductive PollErr where
  | reportFailed
  | timedOut
deriving DecidableEq, Repr

/-- The polling loop of `poll_report` (source lines 359-379) with the clock
injected: the list holds the status responses observed at the polls that
happen before the deadline; exhausting it is the deadline elapsing while the
report is still pending (`TimeoutError`), and a `FAILURE`/`CANCELLED` status
raises `RuntimeError`. -/
def pollLoop : List PollResp → Except PollErr String
  | [] => .error .timedOut
  | r :: rest =>
    if r.status = "SUCCESS" then .ok r.location
    else if r.status = "FAILURE" ∨ r.status = "CANCELLED" then .error .reportFailed
    else pollLoop rest

/-- The report-fetch stage of `main` (source lines 748-755): any error from
polling degrades the stage to an empty row list and the run continues. -/
def reportStageRows (responses : List PollResp) (download : String → List Row) :
    List Row :=
  match pollLoop responses with
  | .ok loc => download loc
  | .error _ => []

/-! ## Shared helper lemmas -/

/-- `clamp` stays inside `[lo, hi]` when the interval is nonempty. -/
theorem clamp_mem_Icc (v lo hi : ℚ) (h : lo ≤ hi) :
    lo ≤ clamp v lo hi ∧ clamp v lo hi ≤ hi := by
  unfold clamp
  constructor
  · exact le_max_left _ _
  · exact max_le h (min_le_left _ _)

/-- `clamp` is the identity on values already inside `[lo, hi]`. -/
theorem clamp_of_mem (v lo hi : ℚ) (h1 : lo ≤ v) (h2 : v ≤ hi) :
    clamp v lo hi = v := by
  unfold clamp
  rw [min_eq_right h2, max_eq_right h1]

/-- Every `some` branch of `decide_bid_change` returns a clamped value. -/
theorem decide_bid_change_some_clamped (rules : Rules) (ctr : ℚ) (acos : AcosVal)
    (clicks : ℤ) (cost sales current_bid daypart_mult b : ℚ)
    (h : decide_bid_change rules ctr acos clicks cost sales current_bid daypart_mult = some b) :
    ∃ v, b = clamp v rules.min_bid rules.max_bid := by
  unfold decide_bid_change at h
  split_ifs at h <;> simp_all <;> exact ⟨_, h.symm⟩

/-! ## Claims -/

/-- C1: the insufficient-data guard of `decide_bid_change` returns no change
exactly when both `clicks < min_clicks` and `cost < min_spend`, regardless of
every other input; and a record with few clicks but cost at or above
`min_spend` is not excluded by the guard (at `clicks = 0`, `cost = 100`,
`sales = 0` the high-ACOS rule still fires). -/
theorem decide_bid_change_insufficient_data_guard (rules : Rules) (ctr : ℚ)
    (acos : AcosVal) (clicks : ℤ) (cost sales current_bid daypart_mult : ℚ)
    (hc : clicks < rules.min_clicks) (hs : cost < rules.min_spend) :
    decide_bid_change rules ctr acos clicks cost sales current_bid daypart_mult = none
    ∧ (decide_bid_change DEFAULT_RULES 0 .inf 0 100 0 1 1).isSome = true := by
  constructor
  · unfold decide_bid_change
    simp [hc, hs]
  · norm_num [decide_bid_change, DEFAULT_RULES, AcosVal.gtQ]

/-- Witness for C1 at a concrete insufficient-data record. -/
theorem decide_bid_change_insufficient_data_guard_witness :
    decide_bid_change DEFAULT_RULES 1 (.val 2) 3 1 0 1 1 = none :=
  (decide_bid_change_insufficient_data_guard DEFAULT_RULES 1 (.val 2) 3 1 0 1 1
    (by decide) (by decide)).1

/-- C2: `compute_kpis` yields `acos = cost / sales` when `sales > 0`, the
infinity sentinel when `sales = 0` and `cost > 0`, and `0` when both are `0`;
concretely `(cost=6, sales=0)` gives the sentinel, `(cost=0, sales=0)` gives
`0`, and `(cost=6, sales=12)` gives `1/2`. -/
theorem compute_kpis_acos_semantics (row : Row) :
    (0 < row.attributedSales14d.getD 0 →
      (compute_kpis row).acos = .val (row.cost.getD 0 / row.attributedSales14d.getD 0))
    ∧ (row.attributedSales14d.getD 0 = 0 → 0 < row.cost.getD 0 →
      (compute_kpis row).acos = .inf)
    ∧ (row.cost.getD 0 = 0 → row.attributedSales14d.getD 0 = 0 →
      (compute_kpis row).acos = .val 0)
    ∧ (compute_kpis ⟨none, none, some 6, some 0⟩).acos = .inf
    ∧ (compute_kpis ⟨none, none, some 0, some 0⟩).acos = .val 0
    ∧ (compute_kpis ⟨none, none, some 6, some 12⟩).acos = .val 0.5 := by
  refine ⟨?_, ?_, ?_, ?_, ?_, ?_⟩
  · intro h
    simp [compute_kpis, h]
  · intro h hc
    simp [compute_kpis, h, hc]
  · intro hc h
    simp [compute_kpis, h, hc]
  · norm_num [compute_kpis]
  · norm_num [compute_kpis]
  · norm_num [compute_kpis]

/-- Witness for C2 at `(cost=6, sales=12)`. -/
theorem compute_kpis_acos_semantics_witness :
    (compute_kpis ⟨none, none, some 6, some 12⟩).acos = .val ((6 : ℚ) / 12) :=
  (compute_kpis_acos_semantics ⟨none, none, some 6, some 12⟩).1 (by decide)

/-- C3: `clamp` always lands in `[min_bid, max_bid]` when that interval is
nonempty and is the identity on values already inside it; consequently every
bid proposed by any branch of `decide_bid_change` lies in
`[min_bid, max_bid]`. -/
theorem clamp_and_bid_range (rules : Rules) (ctr : ℚ) (acos : AcosVal)
    (clicks : ℤ) (cost sales current_bid daypart_mult v b : ℚ)
    (hlohi : rules.min_bid ≤ rules.max_bid) :
    (rules.min_bid ≤ clamp v rules.min_bid rules.max_bid
      ∧ clamp v rules.min_bid rules.max_bid ≤ rules.max_bid)
    ∧ (rules.min_bid ≤ v → v ≤ rules.max_bid → clamp v rules.min_bid rules.max_bid = v)
    ∧ (decide_bid_change rules ctr acos clicks cost sales current_bid daypart_mult = some b →
        rules.min_bid ≤ b ∧ b ≤ rules.max_bid) := by
  refine ⟨clamp_mem_Icc v _ _ hlohi, clamp_of_mem v _ _, ?_⟩
  intro h
  obtain ⟨w, hw⟩ := decide_bid_change_some_clamped rules ctr acos clicks cost sales
    current_bid daypart_mult b h
  rw [hw]
  exact clamp_mem_Icc w _ _ hlohi

/-- Witness for C3: under the default rules the clamp of `0.85` lies in
`[min_bid, max_bid]`. -/
theorem clamp_and_bid_range_witness :
    DEFAULT_RULES.min_bid ≤ clamp 0.85 DEFAULT_RULES.min_bid DEFAULT_RULES.max_bid
    ∧ clamp 0.85 DEFAULT_RULES.min_bid DEFAULT_RULES.max_bid ≤ DEFAULT_RULES.max_bid :=
  (clamp_and_bid_range DEFAULT_RULES 0 .inf 0 100 0 1 1 0.85 0.85
    (by norm_num [DEFAULT_RULES])).1

/-- C9 counterexample: at a row with `clicks = 1` and `impressions = -1`,
the impressions are not positive yet `compute_kpis` returns a nonzero CTR,
because the source tests Python truthiness (`if impressions`), not
positivity. -/
theorem compute_kpis_ctr_claim_cex :
    (⟨some 1, some (-1), none, none⟩ : Row).impressions.getD 0 ≤ 0
    ∧ (compute_kpis ⟨some 1, some (-1), none, none⟩).ctr ≠ 0 := by
  constructor
  · decide
  · norm_num [compute_kpis, pyInt, Rat.floor]

/-- C9 (amended): `compute_kpis` yields `ctr = clicks / impressions` whenever
`impressions ≠ 0` (including negative values), and `ctr = 0` when
`impressions = 0` (including when the column is missing or empty, which
defaults to `0`). -/
theorem compute_kpis_ctr_semantics (row : Row) :
    (row.impressions.getD 0 ≠ 0 →
      (compute_kpis row).ctr = (pyInt (row.clicks.getD 0) : ℚ) / row.impressions.getD 0)
    ∧ (row.impressions.getD 0 = 0 → (compute_kpis row).ctr = 0) := by
  constructor
  · intro h
    simp [compute_kpis, h]
  · intro h
    simp [compute_kpis, h]

/-- Witness for C9 at a concrete row with positive impressions. -/
theorem compute_kpis_ctr_semantics_witness :
    (compute_kpis ⟨some 20, some 20000, none, none⟩).ctr
      = (pyInt ((20 : ℚ)) : ℚ) / 20000 :=
  (compute_kpis_ctr_semantics ⟨some 20, some 20000, none, none⟩).1 (by decide)

/-! ## C4: the bid cascade as an ordered first-match rule list -/

/-- The full input of one `decide_bid_change` evaluation. -/
structure BidInput where
  ctr : ℚ
  acos : AcosVal
  clicks : ℤ
  cost : ℚ
  sales : ℚ
  current_bid : ℚ
  daypart_mult : ℚ

/-- Modelled from the spec (section 4.3): the bid engine as an explicit
ordered list of guard/action pairs, first match wins; compared below with
the source-derived `decide_bid_change`. -/
def bidRuleCascade (rules : Rules) : List ((BidInput → Bool) × (BidInput → Option ℚ)) :=
  [ (fun x => decide (x.clicks < rules.min_clicks) && decide (x.cost < rules.min_spend),
      fun _ => none),
    (fun x => decide (x.ctr < rules.min_ctr) && decide (rules.min_clicks ≤ x.clicks),
      fun x => some (clamp (x.current_bid * (1 - rules.down_pct) * x.daypart_mult)
        rules.min_bid rules.max_bid)),
    (fun x => decide (x.sales ≤ 0) && decide (rules.min_clicks ≤ x.clicks),
      fun x => some (clamp (x.current_bid * (1 - rules.down_pct) * x.daypart_mult)
        rules.min_bid rules.max_bid)),
    (fun x => x.acos.gtQ rules.high_acos,
      fun x => some (clamp (x.current_bid * (1 - rules.down_pct) * x.daypart_mult)
        rules.min_bid rules.max_bid)),
    (fun x => x.acos.ltQ rules.low_acos && decide (0 < x.sales),
      fun x => some (clamp (x.current_bid * (1 + rules.up_pct) * x.daypart_mult)
        rules.min_bid rules.max_bid)),
    (fun x => decide (x.daypart_mult ≠ 1),
      fun x => some (clamp (x.current_bid * x.daypart_mult) rules.min_bid rules.max_bid)) ]

/-- First-match evaluation of an ordered guard/action list; no guard firing
means no change. -/
def firstMatch (x : BidInput) : List ((BidInput → Bool) × (BidInput → Option ℚ)) → Option ℚ
  | [] => none
  | (p, a) :: rest => if p x then a x else firstMatch x rest

/-- C4: `decide_bid_change` is exactly the first-match evaluation of the
fixed ordered cascade (insufficient data, low CTR, no sales, high ACOS, low
ACOS with sales, dayparting pass-through); and on scenario A
(`current_bid = 1.00`, `clicks = 20`, `impressions = 20000`, `cost = 6`,
`sales = 50`, `daypart_mult = 1.0`, default rules) the low-CTR rule fires
first and proposes `0.85`, even though the low-ACOS rule's own condition
(`acos < low_acos` with positive sales) also holds. -/
theorem decide_bid_change_first_match_cascade (rules : Rules) (x : BidInput) :
    decide_bid_change rules x.ctr x.acos x.clicks x.cost x.sales x.current_bid x.daypart_mult
      = firstMatch x (bidRuleCascade rules)
    ∧ (decide_bid_change DEFAULT_RULES (compute_kpis ⟨some 20, some 20000, some 6, some 50⟩).ctr
        (compute_kpis ⟨some 20, some 20000, some 6, some 50⟩).acos
        (compute_kpis ⟨some 20, some 20000, some 6, some 50⟩).clicks 6 50 1 1 = some 0.85)
    ∧ (compute_kpis ⟨some 20, some 20000, some 6, some 50⟩).acos.ltQ DEFAULT_RULES.low_acos = true
    ∧ (0 : ℚ) < 50
    ∧ (compute_kpis ⟨some 20, some 20000, some 6, some 50⟩).ctr < DEFAULT_RULES.min_ctr := by
  refine ⟨?_, ?_, ?_, by norm_num, ?_⟩
  · simp only [decide_bid_change, bidRuleCascade, firstMatch, Bool.and_eq_true,
      decide_eq_true_eq, ge_iff_le]
  · norm_num [decide_bid_change, compute_kpis, pyInt, Rat.floor, DEFAULT_RULES,
      AcosVal.gtQ, AcosVal.ltQ, clamp, max_def, min_def]
  · norm_num [compute_kpis, AcosVal.ltQ, DEFAULT_RULES]
  · norm_num [compute_kpis, pyInt, Rat.floor, DEFAULT_RULES]

/-- The per-entity fold shape shared by `manage_campaigns_by_acos` and
`research_and_add_keywords`: results and calls are the concatenations of the
per-entity results and calls. -/
theorem foldl_pair_append {α β γ : Type} (f : α → List β × List γ) :
    ∀ (l : List α) (acc : List β × List γ),
    l.foldl (fun a x => (a.1 ++ (f x).1, a.2 ++ (f x).2)) acc
      = (acc.1 ++ (l.map fun x => (f x).1).flatten,
         acc.2 ++ (l.map fun x => (f x).2).flatten) := by
  intro l
  induction l with
  | nil => simp
  | cons x xs ih =>
    intro acc
    simp [ih, List.append_assoc]

/-- Every action of a full `manage_campaigns_by_acos` run comes from the
per-campaign step of some entry of the performance map. -/
theorem manage_campaigns_actions_from_steps (rules : Rules)
    (perfs : List (String × CampPerf)) (dry_run : Bool) (a : CampaignAction)
    (ha : a ∈ (manage_campaigns_by_acos rules perfs dry_run).1) :
    ∃ p ∈ perfs, a ∈ (manageCampaignStep rules dry_run p.1 p.2).1 := by
  unfold manage_campaigns_by_acos at ha
  split_ifs at ha with hflags
  · simp at ha
  · rw [foldl_pair_append
      (fun p : String × CampPerf => manageCampaignStep rules dry_run p.1 p.2)] at ha
    simp only [List.nil_append, List.mem_flatten, List.mem_map] at ha
    obtain ⟨s, ⟨p, hp, hs⟩, has⟩ := ha
    exact ⟨p, hp, hs ▸ has⟩

/-- C5: every action of `manage_campaigns_by_acos` arises from the
per-campaign step; one step emits at most one action, and only when
`clicks ≥ min_clicks`; a pause is emitted only when the campaign is
currently enabled and an enable only when it is currently paused (so the
target state always differs from the current one); and whenever the
deactivate branch condition holds, any emitted action is a pause — the
deactivate branch is checked before the activate branch. -/
theorem manage_campaigns_step_invariants (rules : Rules) (dry_run : Bool)
    (perfs : List (String × CampPerf)) (cid : String) (perf : CampPerf) :
    (∀ a ∈ (manage_campaigns_by_acos rules perfs dry_run).1,
        ∃ p ∈ perfs, a ∈ (manageCampaignStep rules dry_run p.1 p.2).1)
    ∧ (manageCampaignStep rules dry_run cid perf).1.length ≤ 1
    ∧ ∀ a ∈ (manageCampaignStep rules dry_run cid perf).1,
        rules.min_clicks ≤ perf.clicks
        ∧ (a.action = "paused" ∨ a.action = "paused (dry-run)"
            ∨ a.action = "enabled" ∨ a.action = "enabled (dry-run)")
        ∧ ((a.action = "paused" ∨ a.action = "paused (dry-run)") → perf.state = "enabled")
        ∧ ((a.action = "enabled" ∨ a.action = "enabled (dry-run)") → perf.state = "paused")
        ∧ (rules.auto_deactivate_campaigns = true →
            perf.acos.gtQ rules.deactivate_acos_threshold = true →
            (a.action = "paused" ∨ a.action = "paused (dry-run)")) := by
  refine ⟨fun a ha => manage_campaigns_actions_from_steps rules perfs dry_run a ha, ?_, ?_⟩
  · unfold manageCampaignStep
    split_ifs <;> simp
  · intro a ha
    unfold manageCampaignStep at ha
    split_ifs at ha <;> simp_all

/-- Witness for C5: under default rules a campaign with ACOS `0.5`, state
enabled and 20 clicks yields a pause action satisfying the invariants. -/
theorem manage_campaigns_step_invariants_witness :
    DEFAULT_RULES.min_clicks ≤ (⟨.val 0.5, 0, 9, 15, 20, "enabled"⟩ : CampPerf).clicks :=
  ((manage_campaigns_step_invariants DEFAULT_RULES false [] "c1"
      ⟨.val 0.5, 0, 9, 15, 20, "enabled"⟩).2.2
    ⟨"c1", "paused", .val 0.5⟩
    (by norm_num [manageCampaignStep, DEFAULT_RULES, AcosVal.gtQ])).1

/-- The suggestion loop accepts at most 5 candidates when it starts below
the ceiling. -/
theorem selectNewKeywords_length_le (rules : Rules) (c a : String) :
    ∀ (sugs : List Suggestion) (seen : List String) (acc : List NewKeyword),
    acc.length < 5 → (selectNewKeywords rules c a seen acc sugs).length ≤ 5 := by
  intro sugs
  induction sugs with
  | nil =>
    intro seen acc h
    simpa [selectNewKeywords] using h.le
  | cons s rest ih =>
    intro seen acc h
    simp only [selectNewKeywords]
    split_ifs with h1 h2
    · exact ih seen acc h
    · simp only [List.length_append, List.length_cons, List.length_nil]
      omega
    · refine ih _ _ ?_
      simp only [List.length_append, List.length_cons, List.length_nil] at h2 ⊢
      omega

/-- Candidates accepted by the suggestion loop never collide with a set of
texts contained in the loop's dedupe set. -/
theorem selectNewKeywords_not_mem (rules : Rules) (c a : String) (S : List String) :
    ∀ (sugs : List Suggestion) (seen : List String) (acc : List NewKeyword),
    (∀ t ∈ S, t ∈ seen) →
    (∀ kw ∈ acc, kw.keywordText.toLower ∉ S) →
    ∀ kw ∈ selectNewKeywords rules c a seen acc sugs, kw.keywordText.toLower ∉ S := by
  intro sugs
  induction sugs with
  | nil =>
    intro seen acc _ hacc
    simpa [selectNewKeywords] using hacc
  | cons s rest ih =>
    intro seen acc hS hacc
    simp only [selectNewKeywords]
    split_ifs with h1 h2
    · exact ih seen acc hS hacc
    · intro kw hkw
      rcases List.mem_append.1 hkw with hkw | hkw
      · exact hacc kw hkw
      · simp only [List.mem_singleton] at hkw
        subst hkw
        intro hmem
        exact h1 (hS _ hmem)
    · refine ih _ _ (fun t ht => List.mem_cons_of_mem _ (hS t ht)) ?_
      intro kw hkw
      rcases List.mem_append.1 hkw with hkw | hkw
      · exact hacc kw hkw
      · simp only [List.mem_singleton] at hkw
        subst hkw
        intro hmem
        exact h1 (hS _ hmem)

/-- The lower-cased texts of the accepted candidates are pairwise distinct,
because each accepted text enters the dedupe set at once. -/
theorem selectNewKeywords_nodup (rules : Rules) (c a : String) :
    ∀ (sugs : List Suggestion) (seen : List String) (acc : List NewKeyword),
    (∀ kw ∈ acc, kw.keywordText.toLower ∈ seen) →
    (acc.map fun kw => kw.keywordText.toLower).Nodup →
    ((selectNewKeywords rules c a seen acc sugs).map fun kw =>
      kw.keywordText.toLower).Nodup := by
  intro sugs
  induction sugs with
  | nil =>
    intro seen acc _ hnd
    simpa [selectNewKeywords] using hnd
  | cons s rest ih =>
    intro seen acc hsub hnd
    simp only [selectNewKeywords]
    split_ifs with h1 h2
    · exact ih seen acc hsub hnd
    · simp only [List.map_append, List.map_cons, List.map_nil]
      refine List.Nodup.append hnd (List.nodup_singleton _) ?_
      intro t ht ht2
      simp only [List.mem_map] at ht
      simp only [List.mem_singleton] at ht2
      obtain ⟨kw, hkw, rfl⟩ := ht
      exact h1 (ht2 ▸ hsub kw hkw)
    · refine ih _ _ ?_ ?_
      · intro kw hkw
        rcases List.mem_append.1 hkw with hkw | hkw
        · exact List.mem_cons_of_mem _ (hsub kw hkw)
        · simp only [List.mem_singleton] at hkw
          subst hkw
          exact List.mem_cons_self _ _
      · simp only [List.map_append, List.map_cons, List.map_nil]
        refine List.Nodup.append hnd (List.nodup_singleton _) ?_
        intro t ht ht2
        simp only [List.mem_map] at ht
        simp only [List.mem_singleton] at ht2
        obtain ⟨kw, hkw, rfl⟩ := ht
        exact h1 (ht2 ▸ hsub kw hkw)

/-- The per-ad-group result is either empty or the rendering of the
suggestion loop's accepted candidates with a fixed status string. -/
theorem processAdGroup_fst_cases (rules : Rules) (dry_run : Bool) (g : AdGroup) :
    (processAdGroup rules dry_run g).1 = []
    ∨ ∃ st, (processAdGroup rules dry_run g).1
        = (selectNewKeywords rules g.campaignId g.adGroupId
            (g.existingKeywords.map String.toLower) [] g.suggestions).map
          (fun kw => ⟨g.adGroupId, kw.keywordText, kw.matchType, kw.bid, st⟩) := by
  simp only [processAdGroup]
  split_ifs
  · exact Or.inl rfl
  · exact Or.inl rfl
  · exact Or.inr ⟨"dry-run", rfl⟩
  · exact Or.inr ⟨"unknown", rfl⟩

/-- C6: per ad group and per run, the Keyword Expansion Engine proposes at
most 5 candidates, none whose lower-cased text is already among the ad
group's existing keyword texts, and no two candidates with the same
lower-cased text (each accepted text immediately enters the dedupe set). -/
theorem research_keywords_dedupe_and_cap (rules : Rules) (dry_run : Bool) (g : AdGroup) :
    (processAdGroup rules dry_run g).1.length ≤ 5
    ∧ (∀ e ∈ (processAdGroup rules dry_run g).1,
        e.keyword.toLower ∉ g.existingKeywords.map String.toLower)
    ∧ ((processAdGroup rules dry_run g).1.map fun e => e.keyword.toLower).Nodup := by
  have hlen := selectNewKeywords_length_le rules g.campaignId g.adGroupId g.suggestions
    (g.existingKeywords.map String.toLower) [] (by simp)
  have hmem := selectNewKeywords_not_mem rules g.campaignId g.adGroupId
    (g.existingKeywords.map String.toLower) g.suggestions
    (g.existingKeywords.map String.toLower) [] (fun t ht => ht) (by simp)
  have hnd := selectNewKeywords_nodup rules g.campaignId g.adGroupId g.suggestions
    (g.existingKeywords.map String.toLower) [] (by simp) (by simp)
  rcases processAdGroup_fst_cases rules dry_run g with hc | ⟨st, hc⟩
  · rw [hc]
    simp
  · rw [hc]
    refine ⟨by simpa using hlen, ?_, ?_⟩
    · intro e he
      simp only [List.mem_map] at he
      obtain ⟨kw, hkw, rfl⟩ := he
      exact hmem kw hkw
    · simpa [List.map_map, Function.comp] using hnd

/-- Witness for C6 on a concrete ad group: the sole accepted candidate is
not a duplicate of the existing keyword. -/
theorem research_keywords_dedupe_and_cap_witness :
    (⟨"g1", "beta", "broad", DEFAULT_RULES.new_keyword_bid, "dry-run"⟩ :
        AddedKeyword).keyword.toLower
      ∉ (["alpha"].map String.toLower) :=
  (research_keywords_dedupe_and_cap DEFAULT_RULES true
      ⟨"g1", "c1", ["alpha"], [⟨some "beta", none⟩]⟩).2.1
    ⟨"g1", "beta", "broad", DEFAULT_RULES.new_keyword_bid, "dry-run"⟩
    (by simp [processAdGroup, selectNewKeywords, DEFAULT_RULES,
      String.toLower, String.map_eq])

/-- In dry-run mode the per-campaign step issues no API call at all. -/
theorem manageCampaignStep_dry_calls (rules : Rules) (cid : String) (perf : CampPerf) :
    (manageCampaignStep rules true cid perf).2 = [] := by
  simp only [manageCampaignStep]
  split_ifs <;> rfl

/-- In dry-run mode the per-ad-group step issues only read calls. -/
theorem processAdGroup_dry_calls (rules : Rules) (g : AdGroup) :
    ∀ cl ∈ (processAdGroup rules true g).2, cl.isMutating = false := by
  simp only [processAdGroup]
  split_ifs <;> intro cl hcl <;>
    simp only [List.mem_append, List.mem_singleton, List.mem_cons,
      List.not_mem_nil, or_false] at hcl
  · subst hcl
    rfl
  · rcases hcl with hcl | hcl <;> subst hcl <;> rfl
  · rcases hcl with hcl | hcl <;> subst hcl <;> rfl

/-- C7: with `dry_run` set, no stage calls a mutating collaborator method:
campaign state management issues no call, keyword research issues only read
calls (never `create_keywords`), and the bid push never calls
`update_keyword_bids`. -/
theorem dry_run_no_mutating_calls (rules : Rules)
    (perfs : List (String × CampPerf)) (gs : List AdGroup) (updates : List BidUpdate) :
    (manage_campaigns_by_acos rules perfs true).2 = []
    ∧ (∀ cl ∈ (research_and_add_keywords rules gs true).2, cl.isMutating = false)
    ∧ pushBidUpdates true updates = [] := by
  refine ⟨?_, ?_, ?_⟩
  · unfold manage_campaigns_by_acos
    split_ifs
    · rfl
    · rw [foldl_pair_append (fun p : String × CampPerf => manageCampaignStep rules true p.1 p.2)]
      simp [manageCampaignStep_dry_calls]
  · intro cl hcl
    unfold research_and_add_keywords at hcl
    split_ifs at hcl
    · simp at hcl
    · rw [foldl_pair_append (fun g : AdGroup => processAdGroup rules true g)] at hcl
      simp only [List.nil_append, List.mem_flatten, List.mem_map] at hcl
      obtain ⟨s, ⟨g, hg, hs⟩, hcs⟩ := hcl
      exact processAdGroup_dry_calls rules g cl (hs ▸ hcs)
  · simp [pushBidUpdates]

/-- Witness for C7: in a concrete dry run the keyword stage's sole calls are
reads. -/
theorem dry_run_no_mutating_calls_witness :
    (ApiCall.getKeywords "g1").isMutating = false :=
  (dry_run_no_mutating_calls DEFAULT_RULES [] [⟨"g1", "c1", [], []⟩] []).2.1
    (.getKeywords "g1")
    (by simp [research_and_add_keywords, processAdGroup, selectNewKeywords, DEFAULT_RULES])

/-- C8: the polling loop returns the download location as soon as a poll
reports `SUCCESS`, errors out on a `FAILURE` or `CANCELLED` status, and
times out when every poll before the deadline reports neither; in `main`
any polling error degrades the report stage to an empty row set. -/
theorem poll_report_outcomes :
    (∀ (loc : String) (rest : List PollResp), pollLoop (⟨"SUCCESS", loc⟩ :: rest) = .ok loc)
    ∧ (∀ (loc : String) (rest : List PollResp),
        pollLoop (⟨"FAILURE", loc⟩ :: rest) = .error .reportFailed)
    ∧ (∀ (loc : String) (rest : List PollResp),
        pollLoop (⟨"CANCELLED", loc⟩ :: rest) = .error .reportFailed)
    ∧ (∀ rs : List PollResp,
        (∀ r ∈ rs, r.status ≠ "SUCCESS" ∧ r.status ≠ "FAILURE" ∧ r.status ≠ "CANCELLED") →
        pollLoop rs = .error .timedOut)
    ∧ (∀ (rs : List PollResp) (download : String → List Row) (e : PollErr),
        pollLoop rs = .error e → reportStageRows rs download = []) := by
  refine ⟨?_, ?_, ?_, ?_, ?_⟩
  · intro loc rest
    simp [pollLoop]
  · intro loc rest
    simp [pollLoop]
  · intro loc rest
    simp [pollLoop]
  · intro rs
    induction rs with
    | nil =>
      intro _
      simp [pollLoop]
    | cons r rest ih =>
      intro h
      obtain ⟨h1, h2, h3⟩ := h r (List.mem_cons_self r rest)
      rw [pollLoop]
      rw [if_neg h1, if_neg (by simp [h2, h3])]
      exact ih fun x hx => h x (List.mem_cons_of_mem _ hx)
  · intro rs download e he
    simp [reportStageRows, he]

/-- Witness for C8: a run whose only poll before the deadline is still
pending times out. -/
theorem poll_report_outcomes_witness :
    pollLoop [⟨"PENDING", ""⟩] = .error .timedOut :=
  poll_report_outcomes.2.2.2.1 [⟨"PENDING", ""⟩] (by simp)

/-- C10: keyword research runs only when both `keyword_research_enabled` and
`auto_add_keywords` are set; otherwise `research_and_add_keywords` returns
no candidates and performs no API call (no keyword fetch, no suggestion
lookup, no keyword creation). -/
theorem research_keywords_requires_both_flags (rules : Rules) (gs : List AdGroup)
    (dry_run : Bool)
    (h : rules.keyword_research_enabled = false ∨ rules.auto_add_keywords = false) :
    research_and_add_keywords rules gs dry_run = ([], []) := by
  rcases h with h | h <;> simp [research_and_add_keywords, h]

/-- Witness for C10: keyword research enabled but auto-add disabled yields
no candidates and no calls. -/
theorem research_keywords_requires_both_flags_witness :
    research_and_add_keywords { DEFAULT_RULES with auto_add_keywords := false }
      [⟨"g1", "c1", [], []⟩] true = ([], []) :=
  research_keywords_requires_both_flags _ _ _ (Or.inr rfl)

end PPC
